import Mathlib

/-
Verification of src/src/basic/os-util.c against its specification.

Shallow embedding conventions:
* C byte strings are `List Nat` (one byte per element); `ascii` converts an
  ASCII Lean string literal to that form.
* C `int` return values (0 / 1 / negative errno) are `Int`.
* External collaborators that live outside src/ (chase_symlinks,
  chase_symlinks_and_opendir, secure_getenv, fd_reopen, laccess, readdir,
  fgetxattr) are modelled as an oracle structure `World`, per the contracts
  in section 6 of the spec.  External pure helpers (filename_is_valid,
  string_has_cc, utf8_is_valid, startswith, parse_boolean, ascii_strlower,
  path_join, strptime, mktime) are modelled from the spec where noted.
* File descriptors and the directory handle are tracked by an explicit
  `Ledger`: every acquisition allocates a fresh id, every close removes it,
  so leaks on exit paths are observable as a non-empty `openFds` list
  (minus the descriptor handed back to the caller).
-/

set_option autoImplicit false

namespace OsUtil

/-- Bytes of a C string (no terminating NUL). -/
abbrev CStr := List Nat

/-- Convert an ASCII Lean string literal into its byte list. -/
def ascii (s : String) : CStr := s.data.map Char.toNat

/-- Errno values used by os-util.c (positive, as in errno.h). -/
def ENOENT : Int := 2

def ENOMEM : Int := 12

def EINVAL : Int := 22

def ENODATA : Int := 61

def ENOTUNIQ : Int := 76

/-- dirent d_type values used by the scan. -/
def DT_UNKNOWN : Nat := 0

def DT_REG : Nat := 8

/-- Modelled from the spec: `startswith` of string-util.h — returns the
suffix after the given literal if it is an initial segment, else NULL. -/
def startswith (p s : CStr) : Option CStr :=
  match p, s with
  | [], rest => some rest
  | _ :: _, [] => none
  | a :: p2, b :: s2 => if a = b then startswith p2 s2 else none

/-- Modelled from the spec: `filename_is_valid` of path-util.h — a valid
filename component is non-empty, not "." or "..", contains no path
separator and is at most NAME_MAX (255) bytes. -/
def filename_is_valid (s : CStr) : Bool :=
  !(s == []) && !(s == [46]) && !(s == [46, 46]) && !(s.contains 47)
    && decide (s.length ≤ 255)

/-- Modelled from the spec: `string_has_cc(s, NULL)` of string-util.h —
true iff the string contains an ASCII control character. -/
def string_has_cc (s : CStr) : Bool :=
  s.any (fun b => decide (b < 32) || b == 127)

/-- Is the byte a UTF-8 continuation byte (0x80..0xBF)? -/
def utf8cont (b : Nat) : Bool := decide (128 ≤ b ∧ b ≤ 191)

/-- Modelled from the spec: `utf8_is_valid` of utf8.h — standard RFC 3629
validation (rejects overlong forms, surrogates and codepoints beyond
U+10FFFF). -/
def utf8_is_valid : CStr → Bool
  | [] => true
  | b :: r =>
    if b ≤ 127 then utf8_is_valid r
    else if 194 ≤ b ∧ b ≤ 223 then
      match r with
      | c1 :: r2 => utf8cont c1 && utf8_is_valid r2
      | [] => false
    else if b = 224 then
      match r with
      | c1 :: c2 :: r2 =>
        decide (160 ≤ c1 ∧ c1 ≤ 191) && utf8cont c2 && utf8_is_valid r2
      | _ => false
    else if 225 ≤ b ∧ b ≤ 236 then
      match r with
      | c1 :: c2 :: r2 => utf8cont c1 && utf8cont c2 && utf8_is_valid r2
      | _ => false
    else if b = 237 then
      match r with
      | c1 :: c2 :: r2 =>
        decide (128 ≤ c1 ∧ c1 ≤ 159) && utf8cont c2 && utf8_is_valid r2
      | _ => false
    else if 238 ≤ b ∧ b ≤ 239 then
      match r with
      | c1 :: c2 :: r2 => utf8cont c1 && utf8cont c2 && utf8_is_valid r2
      | _ => false
    else if b = 240 then
      match r with
      | c1 :: c2 :: c3 :: r2 =>
        decide (144 ≤ c1 ∧ c1 ≤ 191) && utf8cont c2 && utf8cont c3
          && utf8_is_valid r2
      | _ => false
    else if 241 ≤ b ∧ b ≤ 243 then
      match r with
      | c1 :: c2 :: c3 :: r2 =>
        utf8cont c1 && utf8cont c2 && utf8cont c3 && utf8_is_valid r2
      | _ => false
    else if b = 244 then
      match r with
      | c1 :: c2 :: c3 :: r2 =>
        decide (128 ≤ c1 ∧ c1 ≤ 143) && utf8cont c2 && utf8cont c3
          && utf8_is_valid r2
      | _ => false
    else false

/-- Embedding of `image_name_is_valid` (os-util.c lines 22-37): a valid
filename, no control characters, valid UTF-8, and not starting with the
temporary-file marker ".#". -/
def image_name_is_valid (s : CStr) : Bool :=
  filename_is_valid s && !(string_has_cc s) && utf8_is_valid s
    && !(startswith (ascii (".#")) s).isSome

/-- Modelled from the spec: `ascii_strlower` of string-util.h — lower-case
the ASCII letters of the string in place. -/
def ascii_strlower (s : CStr) : CStr :=
  s.map (fun b => if 65 ≤ b ∧ b ≤ 90 then b + 32 else b)

/-- Modelled from the spec: `parse_boolean` of parse-util.h — the standard
truthy/falsy tokens (exact "1"/"0", case-insensitive words), anything else
is -EINVAL. -/
def parse_boolean (v : CStr) : Except Int Bool :=
  if v = ascii ("1") ∨ ascii_strlower v = ascii ("yes")
      ∨ ascii_strlower v = ascii ("y") ∨ ascii_strlower v = ascii ("true")
      ∨ ascii_strlower v = ascii ("t") ∨ ascii_strlower v = ascii ("on") then
    .ok true
  else if v = ascii ("0") ∨ ascii_strlower v = ascii ("no")
      ∨ ascii_strlower v = ascii ("n") ∨ ascii_strlower v = ascii ("false")
      ∨ ascii_strlower v = ascii ("f") ∨ ascii_strlower v = ascii ("off") then
    .ok false
  else .error (-EINVAL)

/-- Modelled from the spec: `path_join` of path-util.h — join two path
components with a separator. -/
def path_join (a b : CStr) : CStr := a ++ 47 :: b

/-- Outcome of `fgetxattr_malloc` on the candidate file: a negative error
(`-ENODATA` when the attribute is absent; any other negative read error),
or the attribute value. -/
inductive XattrRes where
  | rerr (e : Int)
  | val (v : CStr)
deriving DecidableEq

/-- Embedding of `extension_release_strict_xattr_value` (os-util.c lines
61-97).  Returns the C int of the source: the negative error when the
xattr cannot be read (absent included) or parsed, 1 when it parses as
true, 0 when it parses as false. -/
def extension_release_strict_xattr_value (x : XattrRes) : Int :=
  match x with
  | .rerr e => e
  | .val v =>
    match parse_boolean v with
    | .error r => r
    | .ok true => 1
    | .ok false => 0

/-- One directory entry of the fallback scan, together with the outcomes
of the per-candidate external calls: `openErr` is the errno of a failing
`openat` (none = open succeeds), `regular` is the `fd_verify_regular`
verdict, `xattr` the `fgetxattr` outcome. -/
structure DirEnt where
  name : CStr
  dtype : Nat
  openErr : Option Int
  regular : Bool
  xattr : XattrRes
deriving DecidableEq

/-- Explicit descriptor ledger: `next` is the next fresh id, `openFds`
the ids currently open. -/
structure Ledger where
  next : Nat
  openFds : List Nat
deriving DecidableEq

/-- The empty ledger at function entry. -/
def led0 : Ledger := ⟨0, []⟩

/-- Open a fresh descriptor. -/
def allocLed (led : Ledger) : Nat × Ledger :=
  (led.next, ⟨led.next + 1, led.next :: led.openFds⟩)

/-- Close a descriptor. -/
def closeLed (f : Nat) (led : Ledger) : Ledger :=
  ⟨led.next, led.openFds.erase f⟩

/-- Open then immediately close a fresh descriptor (a candidate fd whose
scope ends without being taken). -/
def bumpLed (led : Ledger) : Ledger := ⟨led.next + 1, led.openFds⟩

/-- Close an optionally-held descriptor. -/
def closeOpt (fdS : Option Nat) (led : Ledger) : Ledger :=
  match fdS with
  | some f => closeLed f led
  | none => led

/-- How the scan loop body (os-util.c lines 131-170) treats one entry:
skipped before `openat` (wrong d_type, prefix mismatch, invalid name),
skipped after `openat` (not regular, or the strict-xattr gate is nonzero),
a hard `return -errno` because `openat` failed, or a full candidate. -/
inductive EClass where
  | skipNoOpen
  | skipOpen
  | hard (e : Int)
  | cand
deriving DecidableEq

/-- The "extension-release." filename literal of the scan. -/
def extRelPfxB : CStr := ascii ("extension-release.")

/-- Classify one directory entry exactly in the source's check order:
d_type ∈ {DT_REG, DT_UNKNOWN}; name starts with "extension-release.";
suffix passes image_name_is_valid; openat; fd_verify_regular; unless
relax_extension_release_check, the strict-xattr gate must return 0. -/
def classifyEnt (relax : Bool) (de : DirEnt) : EClass :=
  if de.dtype ≠ DT_REG ∧ de.dtype ≠ DT_UNKNOWN then .skipNoOpen
  else
    match startswith extRelPfxB de.name with
    | none => .skipNoOpen
    | some img =>
      if image_name_is_valid img = false then .skipNoOpen
      else
        match de.openErr with
        | some e => .hard e
        | none =>
          if de.regular = false then .skipOpen
          else if relax = false ∧ extension_release_strict_xattr_value de.xattr ≠ 0 then
            .skipOpen
          else .cand

/-- Loop state of the fallback scan: the running result `r` (-ENOENT until
a candidate is selected, then 0), the taken candidate fd and joined path
(only when the caller requested them), and the descriptor ledger. -/
structure SState where
  r : Int
  fdSlot : Option Nat
  qSlot : Option CStr
  led : Ledger
deriving DecidableEq

/-- Scan outcome: `exit` is an early `return`/`break` out of the loop
(openat failure, or the ENOTUNIQ break), `fell` means the entry list was
exhausted. -/
inductive ScanOut where
  | exit (s : SState)
  | fell (s : SState)
deriving DecidableEq

/-- Embedding of the FOREACH_DIRENT loop body of `open_extension_release`
(os-util.c lines 131-190).  `rf`/`rp` say whether the caller asked for a
descriptor / a path.  A `.hard e` entry models `return -errno` after a
failing openat (the raw `fd` variable is not closed there); a second
candidate while `r == 0` models the `r = -ENOTUNIQ; break`. -/
def scanLoop (relax rf rp : Bool) (dp : CStr) : List DirEnt → SState → ScanOut
  | [], s => .fell s
  | de :: l, s =>
    match classifyEnt relax de with
    | .skipNoOpen => scanLoop relax rf rp dp l s
    | .skipOpen => scanLoop relax rf rp dp l ⟨s.r, s.fdSlot, s.qSlot, bumpLed s.led⟩
    | .hard e => .exit ⟨-e, s.fdSlot, s.qSlot, s.led⟩
    | .cand =>
      if s.r = 0 then .exit ⟨-ENOTUNIQ, s.fdSlot, s.qSlot, bumpLed s.led⟩
      else
        scanLoop relax rf rp dp l
          ⟨0,
           if rf then some s.led.next else s.fdSlot,
           if rp then some (path_join dp de.name) else s.qSlot,
           if rf then (allocLed s.led).2 else bumpLed s.led⟩

/-- Oracle for the external collaborators of os-util.c (spec section 6):
`chase root path prefixRoot` is chase_symlinks (returning the resolved
path on success; an O_PATH descriptor is allocated by the caller model
when requested), `chaseDir root` is chase_symlinks_and_opendir on
/usr/lib/extension-release.d/ (resolved dir path, entry list, and an
optional readdir errno after the listed entries), `env` is
secure_getenv("SYSTEMD_OS_RELEASE"), `laccess path` is the errno of a
failing laccess (none = path exists), `reopen` the fd_reopen outcome. -/
structure World where
  chase : CStr → CStr → Bool → Except Int CStr
  chaseDir : CStr → Except Int (CStr × List DirEnt × Option Int)
  env : Option CStr
  laccess : CStr → Option Int
  reopen : Except Int Unit

/-- Result of `open_extension_release`: the returned int, the values
stored through ret_path / ret_fd (none on error or when not requested),
and the final descriptor ledger (the returned fd, if any, is still listed
as open — it is owned by the caller; anything else left open is a leak). -/
structure OERes where
  r : Int
  path : Option CStr
  fd : Option Nat
  led : Ledger
deriving DecidableEq

/-- Embedding of the tail of `open_extension_release` (os-util.c lines
207-225): on a negative running result return it; otherwise, when a
descriptor was requested, reopen the O_PATH fd as a readable one and close
the original even if the reopen fails. -/
def finishReopen (W : World) (rp rf : Bool) (q : Option CStr) (fdS : Option Nat)
    (led : Ledger) : OERes :=
  if rf then
    match W.reopen with
    | .ok _ =>
      let a := allocLed led
      ⟨0, q, some a.1, closeOpt fdS a.2⟩
    | .error e => ⟨e, none, none, closeOpt fdS led⟩
  else ⟨0, q, none, led⟩

/-- Shared handling of a chase_symlinks outcome in `open_extension_release`:
a negative result is returned as-is; on success the resolved path is kept
when requested, an O_PATH descriptor is allocated when requested, and the
common reopen tail runs. -/
def chaseFinish (W : World) (rp rf : Bool) (cr : Except Int CStr) : OERes :=
  match cr with
  | .error e => ⟨e, none, none, led0⟩
  | .ok p =>
    if rf then
      let a := allocLed led0
      finishReopen W rp rf (if rp then some p else none) (some a.1) a.2
    else finishReopen W rp rf (if rp then some p else none) none led0

/-- Embedding of the fallback directory scan of `open_extension_release`
(os-util.c lines 121-191): open the extension-release.d directory (its
handle is closed on every exit of the block), run the entry loop starting
from r = -ENOENT, propagate a readdir failure as -errno, then fall into
the shared tail.  Directory iteration is modelled from the spec as plain
entry iteration (the FOREACH_DIRENT macro lives outside src/). -/
def fallbackScan (W : World) (root : CStr) (relax rp rf : Bool) : OERes :=
  match W.chaseDir root with
  | .error e2 => ⟨e2, none, none, led0⟩
  | .ok (dp, entries, rdErr) =>
    let a := allocLed led0
    match scanLoop relax rf rp dp entries ⟨-ENOENT, none, none, a.2⟩ with
    | .exit s => ⟨s.r, none, none, closeLed a.1 s.led⟩
    | .fell s =>
      match rdErr with
      | some e3 => ⟨-e3, none, none, closeLed a.1 s.led⟩
      | none =>
        if s.r < 0 then ⟨s.r, none, none, closeLed a.1 s.led⟩
        else finishReopen W rp rf s.qSlot s.fdSlot (closeLed a.1 s.led)

/-- The exact descriptor path for a named extension:
/usr/lib/extension-release.d/extension-release.NAME. -/
def extension_release_full_path (ext : CStr) : CStr :=
  ascii ("/usr/lib/extension-release.d/extension-release.") ++ ext

/-- Embedding of `open_extension_release` (os-util.c lines 99-226).
With an extension name: validate it (else -EINVAL), chase the exact path
under the root with CHASE_PREFIX_ROOT, fall into the directory scan only
on -ENOENT, return any other chase error as-is.  Without a name: chase
$SYSTEMD_OS_RELEASE verbatim (no prefix-rooting) when set, else try
/etc/os-release then /usr/lib/os-release with prefix-rooting, stopping at
the first non-ENOENT outcome.  Both cases share the reopen tail. -/
def open_extension_release (W : World) (root : CStr) (extension : Option CStr)
    (relax rp rf : Bool) : OERes :=
  match extension with
  | some ext =>
    if image_name_is_valid ext = false then ⟨-EINVAL, none, none, led0⟩
    else
      match W.chase root (extension_release_full_path ext) true with
      | .error e =>
        if e = -ENOENT then fallbackScan W root relax rp rf
        else ⟨e, none, none, led0⟩
      | .ok p => chaseFinish W rp rf (.ok p)
  | none =>
    match W.env with
    | some v => chaseFinish W rp rf (W.chase root v false)
    | none =>
      match W.chase root (ascii ("/etc/os-release")) true with
      | .error e =>
        if e = -ENOENT then
          chaseFinish W rp rf (W.chase root (ascii ("/usr/lib/os-release")) true)
        else chaseFinish W rp rf (.error e)
      | .ok p => chaseFinish W rp rf (.ok p)

/-- Embedding of `path_is_extension_tree` (os-util.c lines 39-59): a
failing laccess on the path returns -errno immediately; otherwise the
resolution result is mapped ENOENT → 0, other negative → itself,
success → 1.  ret_path and ret_fd are both NULL in the call. -/
def path_is_extension_tree (W : World) (path : CStr) (extension : Option CStr)
    (relax : Bool) : Int :=
  match W.laccess path with
  | some e => -e
  | none =>
    let r := (open_extension_release W path extension relax false false).r
    if r = -ENOENT then 0
    else if r < 0 then r
    else 1

/-- Embedding of load_os_release_pairs_with_prefix (os-util.c lines
298-325), parametrised by the already-loaded key/value pairs: keep only
the four ID keys, lower-case each kept key and emit "PFXkey=value" lines
in order. -/
def load_os_release_pairs_with_prefix (pfx : CStr) : List (CStr × CStr) → List CStr
  | [] => []
  | (k, v) :: rest =>
    if k = ascii ("ID") ∨ k = ascii ("VERSION_ID") ∨ k = ascii ("BUILD_ID")
        ∨ k = ascii ("VARIANT_ID") then
      (pfx ++ ascii_strlower k ++ 61 :: v) :: load_os_release_pairs_with_prefix pfx rest
    else load_os_release_pairs_with_prefix pfx rest

/-- Broken-down calendar date produced by the strptime model. -/
structure Tm where
  year : Nat
  mon : Nat
  mday : Nat
deriving DecidableEq

/-- Read up to `w` leading decimal digits: returns (value, digit count,
rest). -/
def grabNum (w : Nat) : Nat → Nat → CStr → Nat × Nat × CStr
  | acc, n, [] => (acc, n, [])
  | acc, n, b :: r =>
    if 48 ≤ b ∧ b ≤ 57 ∧ n < w then grabNum w (acc * 10 + (b - 48)) (n + 1) r
    else (acc, n, b :: r)

/-- Modelled from the spec: libc `strptime(s, "%Y-%m-%d", ...)` — up to
four year digits, a literal dash, a 1..12 month, a dash, a 1..31 day;
returns the parsed date and the unconsumed rest (the source rejects a
non-empty rest).  The glibc whitespace-skipping extension is not
modelled. -/
def parse_ymd (s : CStr) : Option (Tm × CStr) :=
  let y := grabNum 4 0 0 s
  if y.2.1 = 0 then none
  else
    match y.2.2 with
    | 45 :: r2 =>
      let m := grabNum 2 0 0 r2
      if m.2.1 = 0 ∨ m.1 < 1 ∨ 12 < m.1 then none
      else
        match m.2.2 with
        | 45 :: r4 =>
          let d := grabNum 2 0 0 r4
          if d.2.1 = 0 ∨ d.1 < 1 ∨ 31 < d.1 then none
          else some (⟨y.1, m.1, d.1⟩, d.2.2)
        | _ => none
    | _ => none

/-- Date-checking tail of `os_release_support_ended` (os-util.c lines
358-371): strict strptime (failure or a trailing byte is -EINVAL), mktime
(modelled by the timezone-dependent `mk`, whose -1 is the C failure
value, also -EINVAL), then compare now rounded up to seconds against the
end-of-life second with `eol` cast to the unsigned 64-bit usec_t. -/
def support_end_check (v : CStr) (mk : Tm → Int) (nowUsec : Nat) : Int :=
  match parse_ymd v with
  | none => -EINVAL
  | some pr =>
    if pr.2 ≠ [] then -EINVAL
    else
      let eol := mk pr.1
      if eol = -1 then -EINVAL
      else if (nowUsec + 999999) / 1000000 > (eol % (18446744073709551616 : Int)).toNat then 1
      else 0

/-- Does the classification demand an immediate `return -errno`? -/
def isHard : EClass → Bool
  | .hard _ => true
  | _ => false

/-- No entry of the list makes the scan return early on a failing openat. -/
def noHardL (relax : Bool) (l : List DirEnt) : Bool :=
  l.all (fun de => !(isHard (classifyEnt relax de)))

/-- Number of entries that pass every eligibility check of the scan
(d_type, prefix, name validity, openat, regular file, strict-xattr gate
unless relaxed). -/
def countCand (relax : Bool) : List DirEnt → Nat
  | [] => 0
  | de :: l =>
    (if classifyEnt relax de = EClass.cand then 1 else 0) + countCand relax l

/-- Embedding of `os_release_support_ended` (os-util.c lines 339-372).
`readRes` is the outcome of parse_os_release for SUPPORT_END when no
value is passed in: a negative read error is returned as-is (via
log_full_errno, which returns its error argument), a missing key returns
false (0).  `quiet` only selects the log level in the source and has no
effect on the returned value. -/
def os_release_support_ended (readRes : Except Int (Option CStr))
    (support_end : Option CStr) (quiet : Bool) (mk : Tm → Int)
    (nowUsec : Nat) : Int :=
  match support_end with
  | some v => support_end_check v mk nowUsec
  | none =>
    match readRes with
    | .error r => r
    | .ok none => 0
    | .ok (some v) => support_end_check v mk nowUsec

/-- An entry whose name does not start with "extension-release." is
skipped before any descriptor is opened, whatever its d_type. -/
theorem classify_of_nopfx (relax : Bool) (de : DirEnt)
    (h : startswith extRelPfxB de.name = none) :
    classifyEnt relax de = EClass.skipNoOpen := by
  unfold classifyEnt
  split
  · rfl
  · rw [h]

/-- An entry passing the d_type, prefix, name, openat and regular-file
checks is classified by the strict-xattr gate alone. -/
theorem classify_checked (relax : Bool) (de : DirEnt) (img : CStr)
    (hdt : de.dtype = DT_REG) (hpf : startswith extRelPfxB de.name = some img)
    (him : image_name_is_valid img = true) (hop : de.openErr = none)
    (hreg : de.regular = true) :
    classifyEnt relax de =
      (if relax = false ∧ extension_release_strict_xattr_value de.xattr ≠ 0
       then EClass.skipOpen else EClass.cand) := by
  unfold classifyEnt
  rw [hdt, hpf, hop, hreg]
  simp [him, DT_REG, DT_UNKNOWN]

/-- Appending after an early-exiting scan changes nothing. -/
theorem scanLoop_append_exit (relax rf rp : Bool) (dp : CStr)
    (l1 l2 : List DirEnt) :
    ∀ s t, scanLoop relax rf rp dp l1 s = .exit t →
      scanLoop relax rf rp dp (l1 ++ l2) s = .exit t := by
  induction l1 with
  | nil => intro s t h; simp [scanLoop] at h
  | cons de l ih =>
    intro s t h
    rw [List.cons_append]
    cases hc : classifyEnt relax de
    · simp only [scanLoop, hc] at h ⊢
      exact ih _ _ h
    · simp only [scanLoop, hc] at h ⊢
      exact ih _ _ h
    · simp only [scanLoop, hc] at h ⊢
      exact h
    · simp only [scanLoop, hc] at h ⊢
      by_cases hr : s.r = 0
      · rw [if_pos hr] at h ⊢; exact h
      · rw [if_neg hr] at h ⊢; exact ih _ _ h

/-- A scan that falls off the end of its list continues into an appended
suffix from the state it fell with. -/
theorem scanLoop_append_fell (relax rf rp : Bool) (dp : CStr)
    (l1 l2 : List DirEnt) :
    ∀ s t, scanLoop relax rf rp dp l1 s = .fell t →
      scanLoop relax rf rp dp (l1 ++ l2) s = scanLoop relax rf rp dp l2 t := by
  induction l1 with
  | nil =>
    intro s t h
    simp only [scanLoop, ScanOut.fell.injEq] at h
    rw [List.nil_append, h]
  | cons de l ih =>
    intro s t h
    rw [List.cons_append]
    cases hc : classifyEnt relax de
    · simp only [scanLoop, hc] at h ⊢
      exact ih _ _ h
    · simp only [scanLoop, hc] at h ⊢
      exact ih _ _ h
    · simp only [scanLoop, hc] at h
      exact absurd h (by simp)
    · simp only [scanLoop, hc] at h ⊢
      by_cases hr : s.r = 0
      · rw [if_pos hr] at h; exact absurd h (by simp)
      · rw [if_neg hr] at h ⊢; exact ih _ _ h

/-- A list of entries that are all skipped before opening leaves the scan
state untouched. -/
theorem scanLoop_fell_of_allskip (relax rf rp : Bool) (dp : CStr) :
    ∀ (l : List DirEnt) (s : SState),
      (∀ de ∈ l, classifyEnt relax de = EClass.skipNoOpen) →
      scanLoop relax rf rp dp l s = .fell s := by
  intro l
  induction l with
  | nil => intro s _; rfl
  | cons de l ih =>
    intro s h
    simp only [scanLoop, h de (List.mem_cons_self de l)]
    exact ih s (fun x hx => h x (List.mem_cons_of_mem de hx))

/-- With a candidate already selected (r = 0), a further candidate makes
the scan exit with -ENOTUNIQ, provided no entry hard-fails first. -/
theorem scanLoop_exit_notuniq_sel (relax rf rp : Bool) (dp : CStr) :
    ∀ (l : List DirEnt) (s : SState), s.r = 0 → noHardL relax l = true →
      1 ≤ countCand relax l →
      ∃ t, scanLoop relax rf rp dp l s = .exit t ∧ t.r = -ENOTUNIQ := by
  intro l
  induction l with
  | nil => intro s _ _ h3; exact absurd h3 (by simp [countCand])
  | cons de l ih =>
    intro s h1 h2 h3
    simp only [noHardL, List.all_cons, Bool.and_eq_true] at h2
    cases hc : classifyEnt relax de
    · simp only [scanLoop, hc]
      refine ih s h1 h2.2 ?_
      simpa [countCand, hc] using h3
    · simp only [scanLoop, hc]
      refine ih _ h1 h2.2 ?_
      simpa [countCand, hc] using h3
    · rw [hc] at h2; simp [isHard] at h2
    · simp only [scanLoop, hc]
      rw [if_pos h1]
      exact ⟨_, rfl, rfl⟩

/-- With no candidate selected yet, at least two candidates (and no
hard-failing entry) make the scan exit with -ENOTUNIQ. -/
theorem scanLoop_exit_notuniq_two (relax rf rp : Bool) (dp : CStr) :
    ∀ (l : List DirEnt) (s : SState), s.r ≠ 0 → noHardL relax l = true →
      2 ≤ countCand relax l →
      ∃ t, scanLoop relax rf rp dp l s = .exit t ∧ t.r = -ENOTUNIQ := by
  intro l
  induction l with
  | nil => intro s _ _ h3; exact absurd h3 (by simp [countCand])
  | cons de l ih =>
    intro s h1 h2 h3
    simp only [noHardL, List.all_cons, Bool.and_eq_true] at h2
    cases hc : classifyEnt relax de
    · simp only [scanLoop, hc]
      refine ih s h1 h2.2 ?_
      simpa [countCand, hc] using h3
    · simp only [scanLoop, hc]
      refine ih _ h1 h2.2 ?_
      simpa [countCand, hc] using h3
    · rw [hc] at h2; simp [isHard] at h2
    · simp only [scanLoop, hc]
      rw [if_neg h1]
      refine scanLoop_exit_notuniq_sel relax rf rp dp l _ rfl h2.2 ?_
      have hcc : countCand relax (de :: l) = 1 + countCand relax l := by
        simp [countCand, hc]
      omega

/-- With no hard-failing entry and no candidate, the scan falls through
preserving r and both result slots. -/
theorem scanLoop_fell_count_zero (relax rf rp : Bool) (dp : CStr) :
    ∀ (l : List DirEnt) (s : SState), noHardL relax l = true →
      countCand relax l = 0 →
      ∃ led2, scanLoop relax rf rp dp l s =
        .fell ⟨s.r, s.fdSlot, s.qSlot, led2⟩ := by
  intro l
  induction l with
  | nil => intro s _ _; exact ⟨s.led, rfl⟩
  | cons de l ih =>
    intro s h2 h3
    simp only [noHardL, List.all_cons, Bool.and_eq_true] at h2
    cases hc : classifyEnt relax de
    · simp only [scanLoop, hc]
      exact ih s h2.2 (by simpa [countCand, hc] using h3)
    · simp only [scanLoop, hc]
      exact ih _ h2.2 (by simpa [countCand, hc] using h3)
    · rw [hc] at h2; simp [isHard] at h2
    · exact absurd h3 (by simp [countCand, hc])

/-- With no hard-failing entry and exactly one candidate, the scan falls
through with r = 0. -/
theorem scanLoop_fell_count_one (relax rf rp : Bool) (dp : CStr) :
    ∀ (l : List DirEnt) (s : SState), s.r ≠ 0 → noHardL relax l = true →
      countCand relax l = 1 →
      ∃ t, scanLoop relax rf rp dp l s = .fell t ∧ t.r = 0 := by
  intro l
  induction l with
  | nil => intro s _ _ h3; exact absurd h3 (by simp [countCand])
  | cons de l ih =>
    intro s h1 h2 h3
    simp only [noHardL, List.all_cons, Bool.and_eq_true] at h2
    cases hc : classifyEnt relax de
    · simp only [scanLoop, hc]
      exact ih s h1 h2.2 (by simpa [countCand, hc] using h3)
    · simp only [scanLoop, hc]
      exact ih _ h1 h2.2 (by simpa [countCand, hc] using h3)
    · rw [hc] at h2; simp [isHard] at h2
    · simp only [scanLoop, hc]
      rw [if_neg h1]
      have hz : countCand relax l = 0 := by
        have hcc : countCand relax (de :: l) = 1 + countCand relax l := by
          simp [countCand, hc]
        omega
      obtain ⟨led2, hl⟩ := scanLoop_fell_count_zero relax rf rp dp l _ h2.2 hz
      exact ⟨_, hl, rfl⟩

/-- A chase error is returned as-is by the shared tail. -/
theorem chaseFinish_error (W : World) (rp rf : Bool) (e : Int) :
    chaseFinish W rp rf (.error e) = ⟨e, none, none, led0⟩ := rfl

/-- A successful chase followed by a successful reopen yields success with
the resolved path (when requested). -/
theorem chaseFinish_ok (W : World) (rp rf : Bool) (p : CStr)
    (hre : W.reopen = .ok ()) :
    (chaseFinish W rp rf (.ok p)).r = 0 ∧
    (chaseFinish W rp rf (.ok p)).path = (if rp then some p else none) := by
  cases rf <;> simp [chaseFinish, finishReopen, hre]

/-- With a valid name whose exact path chase fails with -ENOENT,
open_extension_release is exactly the fallback directory scan. -/
theorem oer_fallback (W : World) (root ext : CStr) (relax rp rf : Bool)
    (hv : image_name_is_valid ext = true)
    (hc : W.chase root (extension_release_full_path ext) true =
      .error (-ENOENT)) :
    open_extension_release W root (some ext) relax rp rf =
      fallbackScan W root relax rp rf := by
  simp [open_extension_release, hv, hc]

/-- Sole syntactically-matching entry, classified skip-after-open (e.g. a
nonzero strict-xattr gate): the scan selects nothing and the fallback
fails with -ENOENT. -/
theorem fallbackScan_sole_skipOpen (W : World) (root : CStr)
    (relax rp rf : Bool) (dp : CStr) (l1 l2 : List DirEnt) (c : DirEnt)
    (hd : W.chaseDir root = .ok (dp, l1 ++ c :: l2, none))
    (h1 : ∀ de ∈ l1, classifyEnt relax de = EClass.skipNoOpen)
    (h2 : ∀ de ∈ l2, classifyEnt relax de = EClass.skipNoOpen)
    (hcC : classifyEnt relax c = EClass.skipOpen) :
    (fallbackScan W root relax rp rf).r = -ENOENT ∧
    (fallbackScan W root relax rp rf).path = none := by
  have hstep : scanLoop relax rf rp dp (l1 ++ c :: l2)
      ⟨-ENOENT, none, none, (allocLed led0).2⟩ =
      .fell ⟨-ENOENT, none, none, bumpLed (allocLed led0).2⟩ := by
    rw [scanLoop_append_fell relax rf rp dp l1 (c :: l2) _ _
      (scanLoop_fell_of_allskip relax rf rp dp l1 _ h1)]
    simp only [scanLoop, hcC]
    exact scanLoop_fell_of_allskip relax rf rp dp l2 _ h2
  have hneg : (-ENOENT : Int) < 0 := by norm_num [ENOENT]
  simp [fallbackScan, hd, hstep, hneg]

/-- Sole syntactically-matching entry, a full candidate: the fallback
succeeds with its joined path (no descriptor requested). -/
theorem fallbackScan_sole_cand (W : World) (root : CStr) (relax rp : Bool)
    (dp : CStr) (l1 l2 : List DirEnt) (c : DirEnt)
    (hd : W.chaseDir root = .ok (dp, l1 ++ c :: l2, none))
    (h1 : ∀ de ∈ l1, classifyEnt relax de = EClass.skipNoOpen)
    (h2 : ∀ de ∈ l2, classifyEnt relax de = EClass.skipNoOpen)
    (hcC : classifyEnt relax c = EClass.cand) :
    (fallbackScan W root relax rp false).r = 0 ∧
    (fallbackScan W root relax rp false).path =
      (if rp then some (path_join dp c.name) else none) := by
  have hstep : scanLoop relax false rp dp (l1 ++ c :: l2)
      ⟨-ENOENT, none, none, (allocLed led0).2⟩ =
      .fell ⟨0, none, if rp then some (path_join dp c.name) else none,
        bumpLed (allocLed led0).2⟩ := by
    rw [scanLoop_append_fell relax false rp dp l1 (c :: l2) _ _
      (scanLoop_fell_of_allskip relax false rp dp l1 _ h1)]
    simp only [scanLoop, hcC]
    rw [if_neg (by simp [ENOENT] : ¬((-ENOENT : Int) = 0))]
    exact scanLoop_fell_of_allskip relax false rp dp l2 _ h2
  simp [fallbackScan, hd, hstep, finishReopen]

/-- Concrete candidate: eligible (xattr parses as false). -/
def entFalse1 : DirEnt :=
  ⟨ascii ("extension-release.alpha"), 8, none, true, .val (ascii ("false"))⟩

/-- Concrete candidate: a second eligible one. -/
def entFalse2 : DirEnt :=
  ⟨ascii ("extension-release.beta"), 8, none, true, .val (ascii ("false"))⟩

/-- Concrete candidate: strict xattr absent (read fails with -ENODATA). -/
def entAbsent : DirEnt :=
  ⟨ascii ("extension-release.alpha"), 8, none, true, .rerr (-ENODATA)⟩

/-- Concrete candidate: strict xattr present and true. -/
def entStrict : DirEnt :=
  ⟨ascii ("extension-release.alpha"), 8, none, true, .val (ascii ("true"))⟩

/-- Resolved path of the extension-release.d directory in the concrete
scenarios. -/
def dirC : CStr := ascii ("/usr/lib/extension-release.d")

/-- Concrete world for fallback-scan scenarios: every exact chase fails
with -ENOENT and the directory holds the given entries. -/
def mkScanWorld (l : List DirEnt) : World :=
  ⟨fun _ _ _ => .error (-ENOENT), fun _ => .ok (dirC, l, none), none,
   fun _ => none, .ok ()⟩

/-- Claim C1 counterexample: in the concrete world whose single
syntactically-matching candidate lacks the strict xattr (the read fails
with -ENODATA), the gate value is nonzero — not "proceed" — and
open_extension_release returns -ENOENT instead of selecting the sole
candidate, contradicting the claim. -/
theorem c1_counterexample :
    extension_release_strict_xattr_value (XattrRes.rerr (-ENODATA)) ≠ 0 ∧
    (open_extension_release (mkScanWorld [entAbsent]) [] (some (ascii ("foo")))
      false true false).r = -ENOENT ∧
    (open_extension_release (mkScanWorld [entAbsent]) [] (some (ascii ("foo")))
      false true false).path = none := by
  refine ⟨by decide, rfl, rfl⟩

/-- Claim C1 (amended): a fallback candidate whose strict xattr is absent
or unreadable keeps the negative read error as its gate value, and an
unparseable value keeps the parse error; with relax_check unset the call
site skips every candidate whose gate value is nonzero, so a sole such
syntactically-matching candidate is not selected and resolution fails
with -ENOENT (NotFound). -/
theorem c1_amended_absent_xattr_skipped :
    (∀ e : Int, extension_release_strict_xattr_value (XattrRes.rerr e) = e)
    ∧ (∀ (v : CStr) (pe : Int), parse_boolean v = .error pe →
        extension_release_strict_xattr_value (XattrRes.val v) = pe)
    ∧ (∀ (W : World) (root ext dp img : CStr) (rp rf : Bool)
         (l1 l2 : List DirEnt) (c : DirEnt),
         image_name_is_valid ext = true →
         W.chase root (extension_release_full_path ext) true =
           .error (-ENOENT) →
         W.chaseDir root = .ok (dp, l1 ++ c :: l2, none) →
         (∀ de ∈ l1, startswith extRelPfxB de.name = none) →
         (∀ de ∈ l2, startswith extRelPfxB de.name = none) →
         c.dtype = DT_REG → startswith extRelPfxB c.name = some img →
         image_name_is_valid img = true → c.openErr = none →
         c.regular = true →
         extension_release_strict_xattr_value c.xattr ≠ 0 →
         (open_extension_release W root (some ext) false rp rf).r = -ENOENT) := by
  refine ⟨fun e => rfl, fun v pe hpb => ?_, ?_⟩
  · simp [extension_release_strict_xattr_value, hpb]
  · intro W root ext dp img rp rf l1 l2 c hv hc hd h1 h2 hdt hpf him hop hreg hg
    rw [oer_fallback W root ext false rp rf hv hc]
    have hcC : classifyEnt false c = EClass.skipOpen := by
      rw [classify_checked false c img hdt hpf him hop hreg]
      simp [hg]
    exact (fallbackScan_sole_skipOpen W root false rp rf dp l1 l2 c hd
      (fun de hde => classify_of_nopfx false de (h1 de hde))
      (fun de hde => classify_of_nopfx false de (h2 de hde)) hcC).1

/-- Witness for the amended C1 at concrete inputs. -/
theorem c1_amended_witness :
    extension_release_strict_xattr_value (XattrRes.rerr (-ENODATA)) = -ENODATA ∧
    extension_release_strict_xattr_value (XattrRes.val (ascii ("maybe"))) =
      -EINVAL ∧
    (open_extension_release (mkScanWorld [entAbsent]) [] (some (ascii ("foo")))
      false true true).r = -ENOENT :=
  ⟨c1_amended_absent_xattr_skipped.1 (-ENODATA),
   c1_amended_absent_xattr_skipped.2.1 (ascii ("maybe")) (-EINVAL) rfl,
   c1_amended_absent_xattr_skipped.2.2 (mkScanWorld [entAbsent]) []
     (ascii ("foo")) dirC (ascii ("alpha")) true true [] [] entAbsent
     (by decide) rfl rfl (by simp) (by simp) rfl rfl (by decide) rfl rfl
     (by decide)⟩

/-- Claim C2: whenever at least two entries pass every eligibility check
(and no entry aborts the scan with a failing openat), resolution fails
with -ENOTUNIQ and neither candidate's path or descriptor is returned;
moreover the loop aborts at the second candidate — the entries after it
are never examined, so the outcome is identical to the scan truncated
right after that second candidate. -/
theorem c2_ambiguous_two_candidates :
    (∀ (W : World) (root ext dp : CStr) (relax rp rf : Bool)
       (entries : List DirEnt) (rdErr : Option Int),
       image_name_is_valid ext = true →
       W.chase root (extension_release_full_path ext) true =
         .error (-ENOENT) →
       W.chaseDir root = .ok (dp, entries, rdErr) →
       noHardL relax entries = true →
       2 ≤ countCand relax entries →
       (open_extension_release W root (some ext) relax rp rf).r = -ENOTUNIQ ∧
       (open_extension_release W root (some ext) relax rp rf).path = none ∧
       (open_extension_release W root (some ext) relax rp rf).fd = none)
    ∧ (∀ (relax rf rp : Bool) (dp : CStr) (l0 : List DirEnt) (b : DirEnt)
         (rest : List DirEnt) (s : SState),
         s.r ≠ 0 → noHardL relax l0 = true → countCand relax l0 = 1 →
         classifyEnt relax b = EClass.cand →
         scanLoop relax rf rp dp (l0 ++ b :: rest) s =
           scanLoop relax rf rp dp (l0 ++ [b]) s) := by
  constructor
  · intro W root ext dp relax rp rf entries rdErr hv hc hd hnh hcnt
    rw [oer_fallback W root ext relax rp rf hv hc]
    obtain ⟨t, hsc, htr⟩ := scanLoop_exit_notuniq_two relax rf rp dp entries
      ⟨-ENOENT, none, none, (allocLed led0).2⟩ (by norm_num [ENOENT]) hnh hcnt
    simp [fallbackScan, hd, hsc, htr]
  · intro relax rf rp dp l0 b rest s hs hnh hcnt hb
    obtain ⟨t, hfell, htr⟩ :=
      scanLoop_fell_count_one relax rf rp dp l0 s hs hnh hcnt
    rw [scanLoop_append_fell relax rf rp dp l0 (b :: rest) s t hfell,
        scanLoop_append_fell relax rf rp dp l0 [b] s t hfell]
    simp [scanLoop, hb, htr]

/-- Witness for C2 at concrete inputs. -/
theorem c2_witness :
    (open_extension_release (mkScanWorld [entFalse1, entFalse2]) []
      (some (ascii ("foo"))) false true true).r = -ENOTUNIQ ∧
    scanLoop false false false dirC ([entFalse1] ++ entFalse2 :: [entFalse1])
      ⟨-ENOENT, none, none, led0⟩ =
      scanLoop false false false dirC ([entFalse1] ++ [entFalse2])
        ⟨-ENOENT, none, none, led0⟩ :=
  ⟨(c2_ambiguous_two_candidates.1 (mkScanWorld [entFalse1, entFalse2]) []
      (ascii ("foo")) dirC false true true [entFalse1, entFalse2] none
      (by decide) rfl rfl (by decide) (by decide)).1,
   c2_ambiguous_two_candidates.2 false false false dirC [entFalse1] entFalse2
     [entFalse1] ⟨-ENOENT, none, none, led0⟩ (by decide) (by decide)
     (by decide) (by decide)⟩

/-- Claim C3: when the exact path
/usr/lib/extension-release.d/extension-release.NAME chases successfully,
open_extension_release succeeds with that file and never enters the
fallback scan — W.chaseDir is unconstrained here, so the result cannot
depend on the directory content, ambiguous candidates included; and a
chase error other than -ENOENT is returned as-is (the scan is entered
only on -ENOENT). -/
theorem c3_exact_match_wins :
    ∀ (W : World) (root ext p : CStr) (relax rp rf : Bool),
      image_name_is_valid ext = true →
      ((W.chase root (extension_release_full_path ext) true = .ok p →
        W.reopen = .ok () →
        (open_extension_release W root (some ext) relax rp rf).r = 0 ∧
        (open_extension_release W root (some ext) relax rp rf).path =
          (if rp then some p else none))
      ∧ (∀ e : Int,
          W.chase root (extension_release_full_path ext) true = .error e →
          e ≠ -ENOENT →
          open_extension_release W root (some ext) relax rp rf =
            ⟨e, none, none, led0⟩)) := by
  intro W root ext p relax rp rf hv
  constructor
  · intro hc hre
    have hgoal : open_extension_release W root (some ext) relax rp rf =
        chaseFinish W rp rf (.ok p) := by
      simp [open_extension_release, hv, hc]
    rw [hgoal]
    exact chaseFinish_ok W rp rf p hre
  · intro e hc he
    simp [open_extension_release, hv, hc, he, chaseFinish]

/-- Concrete world for C3: the exact chase succeeds although the
directory also holds two eligible candidates. -/
def WExactC3 : World :=
  ⟨fun _ _ _ =>
     .ok (ascii ("/r/usr/lib/extension-release.d/extension-release.foo")),
   fun _ => .ok (dirC, [entFalse1, entFalse2], none), none, fun _ => none,
   .ok ()⟩

/-- Concrete world for C3: the exact chase fails with -EACCES (13). -/
def WErrC3 : World :=
  ⟨fun _ _ _ => .error (-13),
   fun _ => .ok (dirC, [entFalse1, entFalse2], none), none, fun _ => none,
   .ok ()⟩

/-- Witness for C3 at concrete inputs. -/
theorem c3_witness :
    ((open_extension_release WExactC3 [] (some (ascii ("foo"))) false true
        false).r = 0 ∧
     (open_extension_release WExactC3 [] (some (ascii ("foo"))) false true
        false).path =
       (if true then
          some (ascii ("/r/usr/lib/extension-release.d/extension-release.foo"))
        else none)) ∧
    open_extension_release WErrC3 [] (some (ascii ("foo"))) false true false =
      ⟨-13, none, none, led0⟩ :=
  ⟨(c3_exact_match_wins WExactC3 []
      (ascii ("foo"))
      (ascii ("/r/usr/lib/extension-release.d/extension-release.foo"))
      false true false (by decide)).1 rfl rfl,
   (c3_exact_match_wins WErrC3 []
      (ascii ("foo"))
      (ascii ("/r/usr/lib/extension-release.d/extension-release.foo"))
      false true false (by decide)).2 (-13) rfl (by decide)⟩

/-- Claim C4 (code bug, evaluated at the failing input): two eligible
candidates and a requested descriptor.  The function records the first
candidate's O_PATH descriptor (ledger id 1) for return via TAKE_FD into
the raw local `fd`, then hits the second candidate, breaks with
-ENOTUNIQ and returns without closing it: descriptor 1 is still open in
the final ledger although no descriptor was handed to the caller, so the
ambiguity exit path leaks one internally acquired handle, contradicting
the claim that every exit path releases every handle. -/
theorem c4_fd_leak_on_ambiguity :
    (open_extension_release (mkScanWorld [entFalse1, entFalse2]) []
      (some (ascii ("foo"))) false false true).r = -ENOTUNIQ ∧
    (open_extension_release (mkScanWorld [entFalse1, entFalse2]) []
      (some (ascii ("foo"))) false false true).fd = none ∧
    (open_extension_release (mkScanWorld [entFalse1, entFalse2]) []
      (some (ascii ("foo"))) false false true).led.openFds = [1] := by
  refine ⟨rfl, rfl, rfl⟩

/-- Claim C6: with relax_check unset, a candidate whose strict xattr
parses as true is excluded, and as the only prefix-matching file the
resolution fails with -ENOENT; with relax_check set the same candidate is
eligible and is returned successfully (its joined path when requested). -/
theorem c6_strict_true_excluded_unless_relaxed :
    ∀ (W : World) (root ext dp img xv : CStr) (rp : Bool)
      (l1 l2 : List DirEnt) (c : DirEnt),
      image_name_is_valid ext = true →
      W.chase root (extension_release_full_path ext) true =
        .error (-ENOENT) →
      W.chaseDir root = .ok (dp, l1 ++ c :: l2, none) →
      (∀ de ∈ l1, startswith extRelPfxB de.name = none) →
      (∀ de ∈ l2, startswith extRelPfxB de.name = none) →
      c.dtype = DT_REG → startswith extRelPfxB c.name = some img →
      image_name_is_valid img = true → c.openErr = none → c.regular = true →
      c.xattr = XattrRes.val xv → parse_boolean xv = .ok true →
      ((open_extension_release W root (some ext) false rp false).r =
        -ENOENT ∧
       (open_extension_release W root (some ext) true rp false).r = 0 ∧
       (open_extension_release W root (some ext) true rp false).path =
         (if rp then some (path_join dp c.name) else none)) := by
  intro W root ext dp img xv rp l1 l2 c hv hc hd h1 h2 hdt hpf him hop hreg
    hx hpb
  have hgate : extension_release_strict_xattr_value c.xattr = 1 := by
    rw [hx]
    simp [extension_release_strict_xattr_value, hpb]
  have hskip : classifyEnt false c = EClass.skipOpen := by
    rw [classify_checked false c img hdt hpf him hop hreg]
    simp [hgate]
  have hcand : classifyEnt true c = EClass.cand := by
    rw [classify_checked true c img hdt hpf him hop hreg]
    simp
  refine ⟨?_, ?_⟩
  · rw [oer_fallback W root ext false rp false hv hc]
    exact (fallbackScan_sole_skipOpen W root false rp false dp l1 l2 c hd
      (fun de hde => classify_of_nopfx false de (h1 de hde))
      (fun de hde => classify_of_nopfx false de (h2 de hde)) hskip).1
  · rw [oer_fallback W root ext true rp false hv hc]
    exact fallbackScan_sole_cand W root true rp dp l1 l2 c hd
      (fun de hde => classify_of_nopfx true de (h1 de hde))
      (fun de hde => classify_of_nopfx true de (h2 de hde)) hcand

/-- Witness for C6 at concrete inputs. -/
theorem c6_witness :
    (open_extension_release (mkScanWorld [entStrict]) []
      (some (ascii ("foo"))) false true false).r = -ENOENT ∧
    (open_extension_release (mkScanWorld [entStrict]) []
      (some (ascii ("foo"))) true true false).r = 0 ∧
    (open_extension_release (mkScanWorld [entStrict]) []
      (some (ascii ("foo"))) true true false).path =
      (if true then some (path_join dirC entStrict.name) else none) :=
  c6_strict_true_excluded_unless_relaxed (mkScanWorld [entStrict]) []
    (ascii ("foo")) dirC (ascii ("alpha")) (ascii ("true")) true [] []
    entStrict (by decide) rfl rfl (by simp) (by simp) rfl rfl (by decide)
    rfl rfl rfl rfl

/-- Claim C5 counterexample: on the unparseable value "forever",
os_release_support_ended returns -EINVAL — a negative error delivered by
log_full_errno — and not false (0) as the claim states. -/
theorem c5_counterexample :
    os_release_support_ended (Except.ok none) (some (ascii ("forever")))
      false (fun _ => 0) 0 = -EINVAL ∧ (-EINVAL : Int) ≠ 0 := by
  exact ⟨rfl, by decide⟩

/-- Claim C5 (amended): os_release_support_ended returns the negative
error -EINVAL when the SUPPORT_END value fails the strict YYYY-MM-DD
parse (including a trailing unparsed byte) or when the calendar
conversion fails (mktime = -1), and returns the negative read error when
no value was supplied and the os-release read failed; it returns false
(0) only when the read succeeded but the key is missing; quiet does not
influence the returned value (it only selects the log level in the
source). -/
theorem c5_amended_support_ended :
    ∀ (readRes : Except Int (Option CStr)) (v : CStr) (q q2 : Bool)
      (mk : Tm → Int) (now : Nat),
      ((parse_ymd v = none →
         os_release_support_ended readRes (some v) q mk now = -EINVAL)
      ∧ (∀ tm rest, parse_ymd v = some (tm, rest) → rest ≠ [] →
         os_release_support_ended readRes (some v) q mk now = -EINVAL)
      ∧ (∀ tm, parse_ymd v = some (tm, []) → mk tm = -1 →
         os_release_support_ended readRes (some v) q mk now = -EINVAL)
      ∧ (∀ e : Int, readRes = .error e →
         os_release_support_ended readRes none q mk now = e)
      ∧ (readRes = .ok none →
         os_release_support_ended readRes none q mk now = 0)
      ∧ os_release_support_ended readRes (some v) q mk now =
          os_release_support_ended readRes (some v) q2 mk now) := by
  intro readRes v q q2 mk now
  refine ⟨?_, ?_, ?_, ?_, ?_, rfl⟩
  · intro hp
    simp [os_release_support_ended, support_end_check, hp]
  · intro tm rest hp hrest
    simp [os_release_support_ended, support_end_check, hp, hrest]
  · intro tm hp hmk
    simp [os_release_support_ended, support_end_check, hp, hmk]
  · intro e hr
    simp [os_release_support_ended, hr]
  · intro hr
    simp [os_release_support_ended, hr]

/-- Witness for the amended C5 at concrete inputs. -/
theorem c5_amended_witness :
    os_release_support_ended (Except.ok none) (some (ascii ("nope"))) true
      (fun _ => 0) 5 = -EINVAL ∧
    os_release_support_ended (Except.ok none) (some (ascii ("2000-01-01x")))
      true (fun _ => 0) 5 = -EINVAL ∧
    os_release_support_ended (Except.ok none) (some (ascii ("2000-01-01")))
      true (fun _ => -1) 5 = -EINVAL ∧
    os_release_support_ended (Except.error (-5)) none true (fun _ => 0) 5 =
      -5 ∧
    os_release_support_ended (Except.ok none) none true (fun _ => 0) 5 = 0 :=
  ⟨(c5_amended_support_ended (Except.ok none) (ascii ("nope")) true true
      (fun _ => 0) 5).1 rfl,
   (c5_amended_support_ended (Except.ok none) (ascii ("2000-01-01x")) true
      true (fun _ => 0) 5).2.1 ⟨2000, 1, 1⟩ [120] rfl (by decide),
   (c5_amended_support_ended (Except.ok none) (ascii ("2000-01-01")) true
      true (fun _ => -1) 5).2.2.1 ⟨2000, 1, 1⟩ rfl rfl,
   (c5_amended_support_ended (Except.error (-5)) (ascii ("x")) true true
      (fun _ => 0) 5).2.2.2.1 (-5) rfl,
   (c5_amended_support_ended (Except.ok none) (ascii ("x")) true true
      (fun _ => 0) 5).2.2.2.2.1 rfl⟩

/-- Claim C7: base-OS resolution (no extension name).  With
SYSTEMD_OS_RELEASE set, exactly that path is chased without
prefix-rooting and its outcome — success or any failure, -ENOENT
included — is final (the /etc and /usr/lib chase outcomes are
unconstrained in each conjunct, so no fallback can occur); without it,
/etc/os-release is tried first with prefix-rooting, a non-ENOENT error
is final, success is final, and only -ENOENT moves on to
/usr/lib/os-release, whose outcome is then final. -/
theorem c7_base_os_resolution :
    ∀ (W : World) (root : CStr) (relax rp rf : Bool),
      ((∀ (v : CStr) (e : Int), W.env = some v →
         W.chase root v false = .error e →
         open_extension_release W root none relax rp rf =
           ⟨e, none, none, led0⟩)
      ∧ (∀ (v p : CStr), W.env = some v → W.chase root v false = .ok p →
         W.reopen = .ok () →
         (open_extension_release W root none relax rp rf).r = 0 ∧
         (open_extension_release W root none relax rp rf).path =
           (if rp then some p else none))
      ∧ (∀ e : Int, W.env = none → e ≠ -ENOENT →
         W.chase root (ascii ("/etc/os-release")) true = .error e →
         open_extension_release W root none relax rp rf =
           ⟨e, none, none, led0⟩)
      ∧ (∀ p : CStr, W.env = none →
         W.chase root (ascii ("/etc/os-release")) true = .ok p →
         W.reopen = .ok () →
         (open_extension_release W root none relax rp rf).r = 0 ∧
         (open_extension_release W root none relax rp rf).path =
           (if rp then some p else none))
      ∧ (∀ e2 : Int, W.env = none →
         W.chase root (ascii ("/etc/os-release")) true = .error (-ENOENT) →
         W.chase root (ascii ("/usr/lib/os-release")) true = .error e2 →
         open_extension_release W root none relax rp rf =
           ⟨e2, none, none, led0⟩)
      ∧ (∀ p : CStr, W.env = none →
         W.chase root (ascii ("/etc/os-release")) true = .error (-ENOENT) →
         W.chase root (ascii ("/usr/lib/os-release")) true = .ok p →
         W.reopen = .ok () →
         (open_extension_release W root none relax rp rf).r = 0 ∧
         (open_extension_release W root none relax rp rf).path =
           (if rp then some p else none))) := by
  intro W root relax rp rf
  refine ⟨?_, ?_, ?_, ?_, ?_, ?_⟩
  · intro v e henv hc
    simp [open_extension_release, henv, hc, chaseFinish]
  · intro v p henv hc hre
    have hgoal : open_extension_release W root none relax rp rf =
        chaseFinish W rp rf (.ok p) := by
      simp [open_extension_release, henv, hc]
    rw [hgoal]
    exact chaseFinish_ok W rp rf p hre
  · intro e henv he hc
    simp [open_extension_release, henv, hc, he, chaseFinish]
  · intro p henv hc hre
    have hgoal : open_extension_release W root none relax rp rf =
        chaseFinish W rp rf (.ok p) := by
      simp [open_extension_release, henv, hc]
    rw [hgoal]
    exact chaseFinish_ok W rp rf p hre
  · intro e2 henv hc1 hc2
    simp [open_extension_release, henv, hc1, hc2, chaseFinish]
  · intro p henv hc1 hc2 hre
    have hgoal : open_extension_release W root none relax rp rf =
        chaseFinish W rp rf (.ok p) := by
      simp [open_extension_release, henv, hc1, hc2]
    rw [hgoal]
    exact chaseFinish_ok W rp rf p hre

/-- Concrete world for C7: override set, chase fails with -EACCES. -/
def WEnvErr : World :=
  ⟨fun _ _ _ => .error (-13), fun _ => .error (-ENOENT),
   some (ascii ("/override")), fun _ => none, .ok ()⟩

/-- Concrete world for C7: override set, chase succeeds. -/
def WEnvOk : World :=
  ⟨fun _ _ _ => .ok (ascii ("/override")), fun _ => .error (-ENOENT),
   some (ascii ("/override")), fun _ => none, .ok ()⟩

/-- Concrete world for C7: no override, /etc chase succeeds. -/
def WEtcOk : World :=
  ⟨fun _ _ _ => .ok (ascii ("/r/etc/os-release")), fun _ => .error (-ENOENT),
   none, fun _ => none, .ok ()⟩

/-- Concrete world for C7: no override, /etc is -ENOENT, /usr/lib chase
fails with -ENODEV (19). -/
def WUsrErr : World :=
  ⟨fun _ pa _ =>
     if pa = ascii ("/etc/os-release") then .error (-ENOENT)
     else .error (-19),
   fun _ => .error (-ENOENT), none, fun _ => none, .ok ()⟩

/-- Concrete world for C7: no override, /etc is -ENOENT, /usr/lib chase
succeeds. -/
def WUsrOk : World :=
  ⟨fun _ pa _ =>
     if pa = ascii ("/etc/os-release") then .error (-ENOENT)
     else .ok (ascii ("/r/usr/lib/os-release")),
   fun _ => .error (-ENOENT), none, fun _ => none, .ok ()⟩

/-- Witness for C7 at concrete inputs, one per conjunct (WErrC3 has no
override and a non-ENOENT /etc failure). -/
theorem c7_witness :
    open_extension_release WEnvErr [] none false true false =
      ⟨-13, none, none, led0⟩ ∧
    (open_extension_release WEnvOk [] none false true false).r = 0 ∧
    open_extension_release WErrC3 [] none false true false =
      ⟨-13, none, none, led0⟩ ∧
    (open_extension_release WEtcOk [] none false true false).r = 0 ∧
    open_extension_release WUsrErr [] none false true false =
      ⟨-19, none, none, led0⟩ ∧
    (open_extension_release WUsrOk [] none false true false).r = 0 :=
  ⟨(c7_base_os_resolution WEnvErr [] false true false).1
      (ascii ("/override")) (-13) rfl rfl,
   ((c7_base_os_resolution WEnvOk [] false true false).2.1
      (ascii ("/override")) (ascii ("/override")) rfl rfl rfl).1,
   (c7_base_os_resolution WErrC3 [] false true false).2.2.1 (-13) rfl
     (by decide) rfl,
   ((c7_base_os_resolution WEtcOk [] false true false).2.2.2.1
      (ascii ("/r/etc/os-release")) rfl rfl rfl).1,
   (c7_base_os_resolution WUsrErr [] false true false).2.2.2.2.1 (-19) rfl
     rfl rfl,
   ((c7_base_os_resolution WUsrOk [] false true false).2.2.2.2.2
      (ascii ("/r/usr/lib/os-release")) rfl rfl rfl rfl).1⟩

/-- Claim C8: every string that is empty, ".", "..", contains a path
separator, contains an ASCII control character, is not valid UTF-8, or
starts with ".#" is rejected by image_name_is_valid, and
open_extension_release with it as the extension name returns -EINVAL for
every world — the result is independent of the filesystem, so no
filesystem access can have influenced it. -/
theorem c8_invalid_names_rejected :
    ∀ s : CStr,
      (s = [] ∨ s = [46] ∨ s = [46, 46] ∨ s.contains 47 = true ∨
       string_has_cc s = true ∨ utf8_is_valid s = false ∨
       (startswith (ascii (".#")) s).isSome = true) →
      image_name_is_valid s = false ∧
      ∀ (W : World) (root : CStr) (relax rp rf : Bool),
        open_extension_release W root (some s) relax rp rf =
          ⟨-EINVAL, none, none, led0⟩ := by
  intro s hs
  have hfalse : image_name_is_valid s = false := by
    rcases hs with h | h | h | h | h | h | h
    · subst h; rfl
    · subst h; rfl
    · subst h; rfl
    · have hmem : (47 : Nat) ∈ s := by simpa using h
      simp [image_name_is_valid, filename_is_valid, hmem]
    · simp [image_name_is_valid, h]
    · simp [image_name_is_valid, h]
    · simp [image_name_is_valid, h]
  refine ⟨hfalse, fun W root relax rp rf => ?_⟩
  simp [open_extension_release, hfalse]

/-- Trivial world used by witnesses that must hold for any world. -/
def Wtriv : World :=
  ⟨fun _ _ _ => .error (-ENOENT), fun _ => .error (-ENOENT), none,
   fun _ => none, .ok ()⟩

/-- Witness for C8 at the concrete name "a/b". -/
theorem c8_witness :
    image_name_is_valid (ascii ("a/b")) = false ∧
    open_extension_release Wtriv [] (some (ascii ("a/b"))) false true true =
      ⟨-EINVAL, none, none, led0⟩ :=
  ⟨(c8_invalid_names_rejected (ascii ("a/b")) (by decide)).1,
   (c8_invalid_names_rejected (ascii ("a/b")) (by decide)).2 Wtriv [] false
     true true⟩

/-- Claim C9: for every loaded key/value list, the function
 load_os_release_pairs_with_prefix keeps exactly the pairs whose key is
ID, VERSION_ID, BUILD_ID or VARIANT_ID, emitting for each the line
prefix ++ lower-cased key ++ "=" ++ unchanged value, in order, and drops
everything else; in particular on
{ID=fedora, VERSION_ID=39, PRETTY_NAME=Fedora} with prefix "ID_" the
result is exactly [ID_id=fedora, ID_version_id=39]. -/
theorem c9_load_pairs_with_prefix_filters :
    (∀ (pfx : CStr) (pairs : List (CStr × CStr)),
       load_os_release_pairs_with_prefix pfx pairs =
         (pairs.filter (fun kv =>
            decide (kv.1 = ascii ("ID") ∨ kv.1 = ascii ("VERSION_ID")
              ∨ kv.1 = ascii ("BUILD_ID") ∨ kv.1 = ascii ("VARIANT_ID")))).map
           (fun kv => pfx ++ ascii_strlower kv.1 ++ 61 :: kv.2))
    ∧ load_os_release_pairs_with_prefix (ascii ("ID_"))
        [(ascii ("ID"), ascii ("fedora")), (ascii ("VERSION_ID"), ascii ("39")),
         (ascii ("PRETTY_NAME"), ascii ("Fedora"))] =
        [ascii ("ID_id=fedora"), ascii ("ID_version_id=39")] := by
  constructor
  · intro pfx pairs
    induction pairs with
    | nil => rfl
    | cons kv rest ih =>
      obtain ⟨k, v⟩ := kv
      by_cases h : k = ascii ("ID") ∨ k = ascii ("VERSION_ID")
          ∨ k = ascii ("BUILD_ID") ∨ k = ascii ("VARIANT_ID")
      · simp [ load_os_release_pairs_with_prefix, List.filter_cons, h, ih]
      · simp [ load_os_release_pairs_with_prefix, List.filter_cons, h, ih]
  · rfl

/-- Claim C10: path_is_extension_tree distinguishes a missing root from a
missing descriptor — a failing access on the path returns -errno at once
(the resolution outcome is unconstrained, so it is never consulted);
with the path present, a -ENOENT resolution gives 0, a successful one
gives 1 and any other negative resolution error is propagated
unchanged. -/
theorem c10_path_is_extension_tree_cases :
    ∀ (W : World) (path : CStr) (ext : Option CStr) (relax : Bool),
      ((∀ e : Int, W.laccess path = some e →
         path_is_extension_tree W path ext relax = -e)
      ∧ (W.laccess path = none →
         (((open_extension_release W path ext relax false false).r =
             -ENOENT → path_is_extension_tree W path ext relax = 0)
          ∧ ((open_extension_release W path ext relax false false).r = 0 →
             path_is_extension_tree W path ext relax = 1)
          ∧ (∀ e : Int,
             (open_extension_release W path ext relax false false).r = e →
             e < 0 → e ≠ -ENOENT →
             path_is_extension_tree W path ext relax = e)))) := by
  intro W path ext relax
  constructor
  · intro e hacc
    simp [path_is_extension_tree, hacc]
  · intro hacc
    refine ⟨?_, ?_, ?_⟩
    · intro hr
      simp [path_is_extension_tree, hacc, hr]
    · intro hr
      have hz : ¬((0 : Int) = -ENOENT) := by norm_num [ENOENT]
      simp [path_is_extension_tree, hacc, hr, hz]
    · intro e hr hneg hne
      simp [path_is_extension_tree, hacc, hr, hne, hneg]

/-- Concrete world for C10: the root path itself is missing (laccess
fails with ENOENT = 2). -/
def WNoRoot : World :=
  ⟨fun _ _ _ => .error (-ENOENT), fun _ => .error (-ENOENT), none,
   fun _ => some 2, .ok ()⟩

/-- Witness for C10 at concrete inputs: missing root → -2; present root
with missing descriptor → 0; present root with a resolved sole candidate
→ 1; ambiguous fallback error -ENOTUNIQ propagated unchanged. -/
theorem c10_witness :
    path_is_extension_tree WNoRoot (ascii ("/r")) (some (ascii ("foo")))
      false = -2 ∧
    path_is_extension_tree (mkScanWorld [entAbsent]) (ascii ("/r"))
      (some (ascii ("foo"))) false = 0 ∧
    path_is_extension_tree (mkScanWorld [entFalse1]) (ascii ("/r"))
      (some (ascii ("foo"))) false = 1 ∧
    path_is_extension_tree (mkScanWorld [entFalse1, entFalse2])
      (ascii ("/r")) (some (ascii ("foo"))) false = -ENOTUNIQ :=
  ⟨by
    have h := (c10_path_is_extension_tree_cases WNoRoot (ascii ("/r"))
      (some (ascii ("foo"))) false).1 2 rfl
    simpa using h,
   ((c10_path_is_extension_tree_cases (mkScanWorld [entAbsent])
      (ascii ("/r")) (some (ascii ("foo"))) false).2 rfl).1 rfl,
   ((c10_path_is_extension_tree_cases (mkScanWorld [entFalse1])
      (ascii ("/r")) (some (ascii ("foo"))) false).2 rfl).2.1 rfl,
   ((c10_path_is_extension_tree_cases (mkScanWorld [entFalse1, entFalse2])
      (ascii ("/r")) (some (ascii ("foo"))) false).2 rfl).2.2 (-ENOTUNIQ)
     rfl (by norm_num [ENOTUNIQ]) (by norm_num [ENOTUNIQ, ENOENT])⟩

end OsUtil
